import Mathlib

/-!
Verification of the task-scheduling core of the repository.

The development shallowly embeds the scheduling data structures and the
operations of `base/task/sequence_manager/task_queue_impl.cc`,
`base/task/sequence_manager/time_domain.cc` and `base/timer/timer.cc`.

Conventions of the embedding:
* `TimeTicks` and `TimeDelta` become `Nat` resp. `Int` (microsecond counts);
  a `TimeTicks` value `0` stands for the null (unset) time.
* `EnqueueOrder` becomes `Nat` with `0` = none (unassigned) and
  `1` = the blocking fence; regular values start above `1`.
* a C++ `absl.optional` becomes `Option`.
* callbacks are represented only by their observable property
  (whether `task.task.IsCancelled()` holds, i.e. the bound receiver died).
* the cross-thread lock disappears: each locked critical section is one
  atomic step of a pure state-transition function.
* a min-heap (`std.priority_queue` over a vector, and the intrusive wake-up
  heap of `TimeDomain`) is represented by its extraction order: a list kept
  sorted by the heap comparator, with `top` = head and `pop` = tail.  The
  spec itself notes for the wake-up heap that a plain ordered map keyed by
  (time, queue) is an equivalent realisation because entries are unique.
-/

namespace Sched

/-- EnqueueOrder value `none()`: the task has not been assigned an order. -/
def enqueueOrderNone : Nat := 0

/-- EnqueueOrder value `blocking_fence()`: blocks everything. -/
def blockingFence : Nat := 1

/-- Task: a posted unit of work, as far as the scheduling core observes it
(`Task` of the sequence manager).  The closure itself is abstracted by its
`cancelled` bit, which models `!task.task || task.task.IsCancelled()`. -/
structure Task where
  cancelled : Bool
  is_high_res : Bool
  delayed_run_time : Nat
  sequence_num : Nat
  enqueue_order : Nat
  queue_time : Nat
deriving DecidableEq

/-- PostedTask: what a caller hands to a task runner, before the manager
assigns sequence numbers.  Only the bits the claims observe are kept. -/
structure PostedTask where
  cancelled : Bool
  nestable : Bool
deriving DecidableEq

/-- DelayedWakeUp: the key of the time-domain wake-up heap. -/
structure DelayedWakeUp where
  time : Nat
  sequence_num : Nat
  high_resolution : Bool
deriving DecidableEq

/-- Priority index of `kNormalPriority` (control=0, highest=1, very_high=2,
high=3, normal=4, low=5, best_effort=6). -/
def kNormalPriority : Nat := 4

/-! ## WorkQueue

`work_queue.cc` is not part of the sources under verification; only its
callers are.  The operations below are therefore modelled from the spec:
a work queue is an ordered sequence of tasks consumed at the front with a
fence, "an EnqueueOrder such that tasks with enqueue_order() >= fence are
blocked", and the queue counts as blocked by its fence iff it has no task
with enqueue order strictly below the fence. -/

structure WorkQueue where
  tasks : List Task
  fence : Nat
deriving DecidableEq

/-- Modelled from the spec: `WorkQueue::BlockedByFence` of the missing
`work_queue.cc`.  A work queue is blocked iff a fence is installed and no
task of the queue has an enqueue order strictly below it. -/
def WorkQueue.blockedByFence (wq : WorkQueue) : Bool :=
  wq.fence ≠ 0 && wq.tasks.all fun t => wq.fence ≤ t.enqueue_order

/-- Modelled from the spec: `WorkQueue::InsertFence` of the missing
`work_queue.cc`.  Installs the fence and reports whether the front task,
blocked under the previous fence, is unblocked under the new one. -/
def WorkQueue.insertFence (wq : WorkQueue) (f : Nat) : WorkQueue × Bool :=
  let unblocked := match wq.tasks with
    | [] => false
    | t :: _ => wq.fence ≠ 0 && wq.fence ≤ t.enqueue_order &&
        t.enqueue_order < f
  ({ wq with fence := f }, unblocked)

/-- Modelled from the spec: `WorkQueue::InsertFenceSilently` — installs the
fence without any work-queue-sets notification. -/
def WorkQueue.insertFenceSilently (wq : WorkQueue) (f : Nat) : WorkQueue :=
  { wq with fence := f }

/-- Modelled from the spec: `WorkQueue::RemoveFence` of the missing
`work_queue.cc`.  Clears the fence and reports whether the front task was
blocked by the removed fence. -/
def WorkQueue.removeFence (wq : WorkQueue) : WorkQueue × Bool :=
  let unblocked := match wq.tasks with
    | [] => false
    | t :: _ => wq.fence ≠ 0 && wq.fence ≤ t.enqueue_order
  ({ wq with fence := 0 }, unblocked)

/-- Modelled from the spec: appending a task at the back of a work queue
(`WorkQueue::Push`, also the `TaskPusher` used when promoting ready delayed
tasks). -/
def WorkQueue.push (wq : WorkQueue) (t : Task) : WorkQueue :=
  { wq with tasks := wq.tasks ++ [t] }

/-! ## DelayedIncomingQueue

The min-heap of not-yet-due delayed tasks, ordered by
(delayed run time, sequence number); see
`TaskQueueImpl::DelayedIncomingQueue` in `task_queue_impl.cc`. -/

/-- Heap comparator of `delayed_incoming_queue`: (run time, sequence
number) lexicographically. -/
def taskLe (a b : Task) : Bool :=
  a.delayed_run_time < b.delayed_run_time ||
    (a.delayed_run_time = b.delayed_run_time &&
      a.sequence_num ≤ b.sequence_num)

/-- Ordered insertion into the sorted-list representation of the heap. -/
def insertSorted (t : Task) : List Task → List Task
  | [] => [t]
  | h :: rest => if taskLe t h then t :: h :: rest else h :: insertSorted t rest

/-- Rebuilding the heap invariant (`ranges::make_heap` after a sweep): in
the sorted-list representation this sorts by the heap comparator. -/
def makeHeap (c : List Task) : List Task :=
  c.foldr insertSorted []

/-- DelayedIncomingQueue state: the underlying storage of the priority
queue plus the counter of high-resolution tasks
(`pending_high_res_tasks_`, an `int` in the source). -/
structure DelayedIncomingQueue where
  queue_ : List Task
  pending_high_res_tasks : Int
deriving DecidableEq

/-- Source `DelayedIncomingQueue::push` (task_queue_impl.cc:1341). -/
def DelayedIncomingQueue.push (q : DelayedIncomingQueue) (t : Task) :
    DelayedIncomingQueue :=
  { queue_ := insertSorted t q.queue_,
    pending_high_res_tasks :=
      q.pending_high_res_tasks + (if t.is_high_res then 1 else 0) }

/-- Source `DelayedIncomingQueue::pop` (task_queue_impl.cc:1347).  The source
DCHECKs non-emptiness; popping the empty queue is a no-op here. -/
def DelayedIncomingQueue.pop (q : DelayedIncomingQueue) :
    DelayedIncomingQueue :=
  match q.queue_ with
  | [] => q
  | h :: rest =>
    { queue_ := rest,
      pending_high_res_tasks :=
        q.pending_high_res_tasks - (if h.is_high_res then 1 else 0) }

/-- Source `DelayedIncomingQueue::top`. -/
def DelayedIncomingQueue.top (q : DelayedIncomingQueue) : Option Task :=
  q.queue_.head?

/-- Source `DelayedIncomingQueue::swap` (task_queue_impl.cc:1356): exchanges both
the storage and the high-resolution counter of the two queues. -/
def DelayedIncomingQueue.swap (q r : DelayedIncomingQueue) :
    DelayedIncomingQueue × DelayedIncomingQueue :=
  ({ queue_ := r.queue_, pending_high_res_tasks := r.pending_high_res_tasks },
   { queue_ := q.queue_, pending_high_res_tasks := q.pending_high_res_tasks })

/-- Source `DelayedIncomingQueue::PQueue::SweepCancelledTasks`
(task_queue_impl.cc:1366): stable partition of the underlying storage into
kept and cancelled tasks, re-heapify only when something was removed;
returns the new storage and the number of swept high-resolution tasks. -/
def pqueueSweepCancelledTasks (c : List Task) : List Task × Nat :=
  let kept := c.filter fun t => !t.cancelled
  let deleted := c.filter fun t => t.cancelled
  let numHighRes := (deleted.filter fun t => t.is_high_res).length
  if deleted.isEmpty then (kept, numHighRes) else (makeHeap kept, numHighRes)

/-- Source `DelayedIncomingQueue::SweepCancelledTasks` (task_queue_impl.cc:1361):
sweep the storage and subtract the swept high-resolution tasks from the
counter. -/
def DelayedIncomingQueue.sweepCancelledTasks (q : DelayedIncomingQueue) :
    DelayedIncomingQueue :=
  let r := pqueueSweepCancelledTasks q.queue_
  { queue_ := r.1, pending_high_res_tasks := q.pending_high_res_tasks - r.2 }

/-! ## TaskQueueImpl

The state of one `TaskQueueImpl`, merging the `MainThreadOnly` and
`AnyThread` substructures (the lock becomes atomicity of each operation)
and threading the sequence-manager pieces the queue touches: the monotonic
sequence counter (`GetNextSequenceNumber`) and the per-queue bit of the
"empty queues to reload" atomic flag set. -/

structure TaskQueueImpl where
  immediate_work_queue : WorkQueue
  delayed_work_queue : WorkQueue
  delayed_incoming_queue : DelayedIncomingQueue
  current_fence : Nat
  delayed_fence : Option Nat
  is_enabled : Bool
  priority : Nat
  scheduled_wake_up : Option DelayedWakeUp
  has_task_queue_observer : Bool
  delayed_fence_allowed : Bool
  enqueue_order_at_which_we_became_unblocked : Nat
  enqueue_order_at_which_we_became_unblocked_with_normal_priority : Nat
  immediate_incoming_queue : List Task
  immediate_work_queue_empty : Bool
  post_immediate_task_should_schedule_work : Bool
  empty_queues_to_reload_flag : Bool
  next_sequence_number : Nat
deriving DecidableEq

/-- Source `TaskQueueImpl::UpdateCrossThreadQueueStateLocked`
(task_queue_impl.cc:1023): refresh the two cached any-thread hints. -/
def TaskQueueImpl.updateCrossThreadQueueStateLocked (s : TaskQueueImpl) :
    TaskQueueImpl :=
  { s with
    immediate_work_queue_empty := s.immediate_work_queue.tasks.isEmpty,
    post_immediate_task_should_schedule_work :=
      if s.has_task_queue_observer then s.is_enabled
      else s.is_enabled && s.current_fence = 0 }

/-- Source `TaskQueueImpl::OnQueueUnblocked` (task_queue_impl.cc:1319): record the
sequence number at which the queue became unblocked. -/
def TaskQueueImpl.onQueueUnblocked (s : TaskQueueImpl) : TaskQueueImpl :=
  let eo := s.next_sequence_number
  let s1 := { s with
    next_sequence_number := eo + 1,
    enqueue_order_at_which_we_became_unblocked := eo }
  if s1.priority ≤ kNormalPriority then
    { s1 with
      enqueue_order_at_which_we_became_unblocked_with_normal_priority := eo }
  else s1

/-- Source `TaskQueue::InsertFencePosition`. -/
inductive InsertFencePosition where
  | now
  | beginningOfTime
deriving DecidableEq

/-- Common tail of `InsertFence` and `RemoveFence` (task_queue_impl.cc:824
and 862): when the queue is enabled and a front task became unblocked,
run `OnQueueUnblocked` and invoke `ScheduleWork` (the returned flag). -/
def TaskQueueImpl.maybeScheduleWorkOnUnblocked (s : TaskQueueImpl)
    (front_task_unblocked : Bool) : TaskQueueImpl × Bool :=
  if s.is_enabled && front_task_unblocked then (s.onQueueUnblocked, true)
  else (s, false)

/-- Source `TaskQueueImpl::InsertFence` (task_queue_impl.cc:791).  Returns the new
state and whether `ScheduleWork` was invoked. -/
def TaskQueueImpl.insertFence (s : TaskQueueImpl)
    (position : InsertFencePosition) : TaskQueueImpl × Bool :=
  let s0 := { s with delayed_fence := none }
  let previous_fence := s0.current_fence
  let fence := match position with
    | .now => s0.next_sequence_number
    | .beginningOfTime => blockingFence
  let nsn := match position with
    | .now => s0.next_sequence_number + 1
    | .beginningOfTime => s0.next_sequence_number
  let s1 := { s0 with current_fence := fence, next_sequence_number := nsn }
  let imm := s1.immediate_work_queue.insertFence fence
  let del := s1.delayed_work_queue.insertFence fence
  let front_task_unblocked := imm.2 || del.2
  let s2 := { s1 with immediate_work_queue := imm.1,
                      delayed_work_queue := del.1 }
  let front_task_unblocked :=
    if !front_task_unblocked && previous_fence ≠ 0 &&
        previous_fence < fence then
      match s2.immediate_incoming_queue with
      | [] => front_task_unblocked
      | front :: _ =>
        front_task_unblocked ||
          (previous_fence < front.enqueue_order &&
            front.enqueue_order < fence)
    else front_task_unblocked
  (s2.updateCrossThreadQueueStateLocked).maybeScheduleWorkOnUnblocked
    front_task_unblocked

/-- Source `TaskQueueImpl::RemoveFence` (task_queue_impl.cc:840).  Returns the new
state and whether `ScheduleWork` was invoked. -/
def TaskQueueImpl.removeFence (s : TaskQueueImpl) : TaskQueueImpl × Bool :=
  let previous_fence := s.current_fence
  let s0 := { s with current_fence := 0, delayed_fence := none }
  let imm := s0.immediate_work_queue.removeFence
  let del := s0.delayed_work_queue.removeFence
  let front_task_unblocked := imm.2 || del.2
  let s1 := { s0 with immediate_work_queue := imm.1,
                      delayed_work_queue := del.1 }
  let front_task_unblocked :=
    if !front_task_unblocked && previous_fence ≠ 0 then
      match s1.immediate_incoming_queue with
      | [] => front_task_unblocked
      | front :: _ =>
        front_task_unblocked || previous_fence < front.enqueue_order
    else front_task_unblocked
  (s1.updateCrossThreadQueueStateLocked).maybeScheduleWorkOnUnblocked
    front_task_unblocked

/-- Source `TaskQueueImpl::InsertFenceAt` (task_queue_impl.cc:830): remove any
existing fence, then arm the delayed fence at the given time. -/
def TaskQueueImpl.insertFenceAt (s : TaskQueueImpl) (time : Nat) :
    TaskQueueImpl :=
  { s.removeFence.1 with delayed_fence := some time }

/-- Source `TaskQueueImpl::ActivateDelayedFenceIfNeeded`
(task_queue_impl.cc:1205): when a delayed fence at or before `now` is
pending, convert it into a `kNow` fence. -/
def TaskQueueImpl.activateDelayedFenceIfNeeded (s : TaskQueueImpl)
    (now : Nat) : TaskQueueImpl :=
  match s.delayed_fence with
  | none => s
  | some df =>
    if now < df then s
    else { (s.insertFence .now).1 with delayed_fence := none }

/-- Source `TaskQueueImpl::BlockedByFence` (task_queue_impl.cc:868). -/
def TaskQueueImpl.blockedByFence (s : TaskQueueImpl) : Bool :=
  if s.current_fence = 0 then false
  else if !s.immediate_work_queue.blockedByFence ||
      !s.delayed_work_queue.blockedByFence then false
  else match s.immediate_incoming_queue with
    | [] => true
    | front :: _ => s.current_fence < front.enqueue_order

/-- Source `TaskQueueImpl::HasActiveFence` (task_queue_impl.cc:885), with `now`
standing for `main_thread_only().time_domain->Now()`. -/
def TaskQueueImpl.hasActiveFence (s : TaskQueueImpl) (now : Nat) : Bool :=
  match s.delayed_fence with
  | some df => if df < now then true else s.current_fence ≠ 0
  | none => s.current_fence ≠ 0

/-- Source `TaskQueueImpl::GetNextScheduledWakeUpImpl` (task_queue_impl.cc:535). -/
def TaskQueueImpl.getNextScheduledWakeUpImpl (s : TaskQueueImpl) :
    Option DelayedWakeUp :=
  match s.delayed_incoming_queue.queue_ with
  | [] => none
  | top :: _ =>
    if !s.is_enabled then none
    else some
      { time := top.delayed_run_time,
        sequence_num := top.sequence_num,
        high_resolution :=
          s.delayed_incoming_queue.pending_high_res_tasks > 0 &&
            s.priority ≤ kNormalPriority }

/-- Source `TaskQueueImpl::UpdateDelayedWakeUp` (task_queue_impl.cc:1113): record
the recomputed wake-up (the time-domain heap update it triggers is the
separately modelled `TimeDomain.setNextWakeUpForQueue`). -/
def TaskQueueImpl.updateDelayedWakeUp (s : TaskQueueImpl) : TaskQueueImpl :=
  { s with scheduled_wake_up := s.getNextScheduledWakeUpImpl }

/-- Task construction of the immediate-post path
(task_queue_impl.cc:287): delayed run time is null and the enqueue order
equals the sequence number. -/
def mkImmediateTask (pt : PostedTask) (queueTime : Nat) (seq : Nat) : Task :=
  { cancelled := pt.cancelled, is_high_res := false, delayed_run_time := 0,
    sequence_num := seq, enqueue_order := seq, queue_time := queueTime }

/-- Source `TaskQueueImpl::PostImmediateTaskImpl` (task_queue_impl.cc:262).
`addQueueTime` stands for `sequence_manager->GetAddQueueTimeToTasks()` and
`now` for the any-thread time domain clock.  Returns the new state and
whether `ScheduleWork` was invoked after the lock was released. -/
def TaskQueueImpl.postImmediateTaskImpl (s : TaskQueueImpl)
    (pt : PostedTask) (addQueueTime : Bool) (now : Nat) :
    TaskQueueImpl × Bool :=
  let queueTime := if addQueueTime || s.delayed_fence_allowed then now else 0
  let sequence_number := s.next_sequence_number
  let was_immediate_incoming_queue_empty := s.immediate_incoming_queue.isEmpty
  let task := mkImmediateTask pt queueTime sequence_number
  let s1 := { s with
    immediate_incoming_queue := s.immediate_incoming_queue ++ [task],
    next_sequence_number := sequence_number + 1 }
  if was_immediate_incoming_queue_empty && s1.immediate_work_queue_empty then
    ({ s1 with empty_queues_to_reload_flag := true },
     s1.post_immediate_task_should_schedule_work)
  else (s1, false)

/-- Source `TaskQueueImpl::TakeImmediateIncomingQueueTasks`
(task_queue_impl.cc:457): swap out the staging queue, activate the delayed
fence on the first taken task whose queue time crossed it, refresh the
cross-thread hints.  Returns the new state and the taken tasks. -/
def TaskQueueImpl.takeImmediateIncomingQueueTasks (s : TaskQueueImpl) :
    TaskQueueImpl × List Task :=
  let taken := s.immediate_incoming_queue
  let s1 := { s with immediate_incoming_queue := [] }
  let s2 := match s1.delayed_fence with
    | none => s1
    | some df =>
      match taken.find? (fun (t : Task) => decide (df ≤ t.queue_time)) with
      | none => s1
      | some task =>
        { s1 with
          delayed_fence := none,
          current_fence := task.enqueue_order,
          immediate_work_queue :=
            s1.immediate_work_queue.insertFenceSilently task.enqueue_order,
          delayed_work_queue :=
            s1.delayed_work_queue.insertFenceSilently task.enqueue_order }
  (s2.updateCrossThreadQueueStateLocked, taken)

/-- Body of a promoting iteration of
`MoveReadyDelayedTasksToWorkQueue` (task_queue_impl.cc:583): the due top
task with its freshly allocated enqueue order
(`task->set_enqueue_order(GetNextSequenceNumber())`, allocated after the
delayed-fence activation ran). -/
def TaskQueueImpl.promotedTask (s : TaskQueueImpl) (task : Task) : Task :=
  { task with enqueue_order :=
      (s.activateDelayedFenceIfNeeded
        task.delayed_run_time).next_sequence_number }

/-- State change of a promoting iteration of
`MoveReadyDelayedTasksToWorkQueue` (task_queue_impl.cc:583): activate the
delayed fence at the task run time, allocate the enqueue order, push onto
the delayed work queue, pop the incoming heap. -/
def TaskQueueImpl.promoteTask (s : TaskQueueImpl) (task : Task) :
    TaskQueueImpl :=
  { s.activateDelayedFenceIfNeeded task.delayed_run_time with
    next_sequence_number :=
      (s.activateDelayedFenceIfNeeded
        task.delayed_run_time).next_sequence_number + 1,
    delayed_work_queue :=
      (s.activateDelayedFenceIfNeeded
        task.delayed_run_time).delayed_work_queue.push
        (s.promotedTask task),
    delayed_incoming_queue :=
      (s.activateDelayedFenceIfNeeded
        task.delayed_run_time).delayed_incoming_queue.pop }

/-- Loop body of `TaskQueueImpl::MoveReadyDelayedTasksToWorkQueue`
(task_queue_impl.cc:567).  The list argument is the storage of
`s.delayed_incoming_queue` (they coincide at every call), made explicit
for structural recursion. -/
def moveReadyLoop (now : Nat) : List Task → TaskQueueImpl → TaskQueueImpl
  | [], s => s
  | task :: rest, s =>
    if task.cancelled then
      moveReadyLoop now rest
        { s with delayed_incoming_queue := s.delayed_incoming_queue.pop }
    else if now < task.delayed_run_time then s
    else moveReadyLoop now rest (s.promoteTask task)

/-- Source `TaskQueueImpl::MoveReadyDelayedTasksToWorkQueue`
(task_queue_impl.cc:561). -/
def TaskQueueImpl.moveReadyDelayedTasksToWorkQueue (s : TaskQueueImpl)
    (now : Nat) : TaskQueueImpl :=
  (moveReadyLoop now s.delayed_incoming_queue.queue_ s).updateDelayedWakeUp

/-- Source `TaskQueueImpl::ReclaimMemory` (task_queue_impl.cc:1045).  The
`MaybeShrinkQueue` capacity hints have no observable effect here. -/
def TaskQueueImpl.reclaimMemory (s : TaskQueueImpl) (_now : Nat) :
    TaskQueueImpl :=
  if s.delayed_incoming_queue.queue_.isEmpty then s
  else
    ({ s with
       delayed_incoming_queue :=
         s.delayed_incoming_queue.sweepCancelledTasks }).updateDelayedWakeUp

/-! ## GuardedTaskPoster

`TaskQueueImpl::GuardedTaskPoster::PostTask` (task_queue_impl.cc:59) posts
through an operations gate.  The gate (`base/task/common/
operations_controller.*`) is not among the sources; its three-phase
behaviour is modelled from the spec: it "begins accepting posts only after
the owning manager is set; on shutdown, new posts are rejected". -/

inductive OperationsControllerState where
  | notStarted
  | acceptingOperations
  | shuttingDown
deriving DecidableEq

/-- Modelled from the spec: `OperationsController::TryBeginOperation`
succeeds exactly while the gate accepts operations. -/
def tryBeginOperation : OperationsControllerState → Bool
  | .acceptingOperations => true
  | _ => false

/-- GuardedTaskPoster state: the gate plus the tasks handed on to
`TaskQueueImpl::PostTask` so far. -/
structure GuardedTaskPoster where
  operations_controller_ : OperationsControllerState
  posted : List PostedTask
deriving DecidableEq

/-- Source `GuardedTaskPoster::PostTask` (task_queue_impl.cc:59): try to begin an
operation; on failure return false without enqueuing, otherwise hand the
task to the queue and return true. -/
def GuardedTaskPoster.postTask (p : GuardedTaskPoster) (t : PostedTask) :
    GuardedTaskPoster × Bool :=
  if tryBeginOperation p.operations_controller_ then
    ({ p with posted := p.posted ++ [t] }, true)
  else (p, false)

/-- Modelled from the spec: `OperationsController::
ShutdownAndWaitForZeroOperations` leaves the gate permanently shut. -/
def GuardedTaskPoster.shutdownAndWaitForZeroOperations
    (p : GuardedTaskPoster) : GuardedTaskPoster :=
  { p with operations_controller_ := .shuttingDown }

/-- Gate part of `TaskQueueImpl::UnregisterTaskQueue`
(task_queue_impl.cc:166): the poster is shut down first; the queue
flushing that follows does not touch the poster. -/
def GuardedTaskPoster.unregisterTaskQueue (p : GuardedTaskPoster) :
    GuardedTaskPoster :=
  p.shutdownAndWaitForZeroOperations

/-- Source `TaskQueueImpl::TaskRunner::PostDelayedTask` (task_queue_impl.cc:82):
wraps the callback as a nestable posted task. -/
def GuardedTaskPoster.postDelayedTask (p : GuardedTaskPoster)
    (cancelled : Bool) : GuardedTaskPoster × Bool :=
  p.postTask { cancelled := cancelled, nestable := true }

/-- Source `TaskQueueImpl::TaskRunner::PostNonNestableDelayedTask`
(task_queue_impl.cc:90): wraps the callback as a non-nestable posted
task. -/
def GuardedTaskPoster.postNonNestableDelayedTask (p : GuardedTaskPoster)
    (cancelled : Bool) : GuardedTaskPoster × Bool :=
  p.postTask { cancelled := cancelled, nestable := false }

/-! ## TimeDomain

The wake-up heap of `time_domain.cc`.  The intrusive heap type is not
among the sources; as the spec notes, an association of at most one entry
per queue keyed by the wake-up suffices, so the heap is an association
list from queue id to wake-up, and a valid heap handle is membership. -/

/-- Calls `TimeDomain::SetNextWakeUpForQueue` may issue on the sequence
manager: none, `RequestDoWork`, or `SetNextDelayedDoWork` (argument `none`
stands for `TimeTicks::Max()`, the cancellation sentinel, which lies after
every clock reading). -/
inductive DomainAction where
  | nothing
  | requestDoWork
  | setNextDelayedDoWork : Option Nat → DomainAction
deriving DecidableEq

/-- TimeDomain state: the wake-up entries (at most one per queue id) and
the counter of pending high-resolution wake-ups. -/
structure TimeDomain where
  delayed_wake_up_queue : List (Nat × DelayedWakeUp)
  pending_high_res_wake_up_count : Int
deriving DecidableEq

/-- Time of the minimum entry of the wake-up heap (`Min().wake_up.time`);
the heap key is (time, queue), so the root carries the least time. -/
def heapMinTime (h : List (Nat × DelayedWakeUp)) : Option Nat :=
  (h.map fun e => e.2.time).min?

/-- Heap mutation step of `TimeDomain::SetNextWakeUpForQueue`
(time_domain.cc:74): `ChangeKey` when the queue already has a valid heap
handle, `insert` when it does not, `erase` when the wake-up is removed. -/
def wakeUpHeapUpdate (h : List (Nat × DelayedWakeUp)) (queue : Nat)
    (wake_up : Option DelayedWakeUp) : List (Nat × DelayedWakeUp) :=
  match wake_up with
  | some wu =>
    if h.any fun e => e.1 = queue then
      h.map fun e => if e.1 = queue then (queue, wu) else e
    else h ++ [(queue, wu)]
  | none => h.filter fun e => e.1 ≠ queue

/-- Source `TimeDomain::SetNextWakeUpForQueue` (time_domain.cc:57).  Returns the
new state and the call issued on the sequence manager. -/
def TimeDomain.setNextWakeUpForQueue (d : TimeDomain) (queue : Nat)
    (wake_up : Option DelayedWakeUp) (now : Nat) :
    TimeDomain × DomainAction :=
  let previous_wake_up := heapMinTime d.delayed_wake_up_queue
  let previous_queue_resolution : Option Bool :=
    (d.delayed_wake_up_queue.find? fun e => e.1 = queue).map
      fun e => e.2.high_resolution
  let heap := wakeUpHeapUpdate d.delayed_wake_up_queue queue wake_up
  let new_wake_up := heapMinTime heap
  let count := d.pending_high_res_wake_up_count -
      (if previous_queue_resolution = some true then 1 else 0) +
      (if (wake_up.map fun w => w.high_resolution) = some true then 1 else 0)
  let d1 : TimeDomain :=
    { delayed_wake_up_queue := heap,
      pending_high_res_wake_up_count := count }
  let act := if new_wake_up = previous_wake_up then DomainAction.nothing
    else match new_wake_up with
      | none => DomainAction.setNextDelayedDoWork none
      | some m =>
        if m ≤ now then DomainAction.requestDoWork
        else DomainAction.setNextDelayedDoWork (some m)
  (d1, act)

/-! ## TimerBase

The reset path of `base/timer/timer.cc`.  Times are `Int` so that a
negative delay added to a clock reading behaves as in the source; the
null `TimeTicks()` is `0`. -/

/-- TimerBase state: whether a scheduled task (with its task-destruction
detector) is outstanding, the configured delay, the two run times and the
running bit. -/
structure TimerBase where
  has_scheduled_task : Bool
  delay : Int
  desired_run_time : Int
  scheduled_run_time : Int
  is_running : Bool
deriving DecidableEq

/-- Source `TimerBase::ScheduleNewTask` (timer.cc:143): mark running, create the
detector, post the task; a non-positive delay posts an immediate task and
nulls both run times. -/
def TimerBase.scheduleNewTask (s : TimerBase) (delay : Int) (now : Int) :
    TimerBase :=
  if 0 < delay then
    { s with has_scheduled_task := true, is_running := true,
             scheduled_run_time := now + delay,
             desired_run_time := now + delay }
  else
    { s with has_scheduled_task := true, is_running := true,
             scheduled_run_time := 0, desired_run_time := 0 }

/-- Source `TimerBase::Reset` (timer.cc:116).  Returns the new state and the
delay of the freshly posted task, `none` when no task was posted. -/
def TimerBase.reset (s : TimerBase) (now : Int) : TimerBase × Option Int :=
  if !s.has_scheduled_task then
    (s.scheduleNewTask s.delay now, some s.delay)
  else
    let desired := if 0 < s.delay then now + s.delay else 0
    let s1 := { s with desired_run_time := desired }
    if s1.scheduled_run_time ≤ desired then
      ({ s1 with is_running := true }, none)
    else
      let s2 := { s1 with has_scheduled_task := false }
      (s2.scheduleNewTask s.delay now, some s.delay)

/-! ## Basic lemmas about the operations -/

theorem updateCrossThread_current_fence (s : TaskQueueImpl) :
    s.updateCrossThreadQueueStateLocked.current_fence = s.current_fence := rfl

theorem updateCrossThread_delayed_fence (s : TaskQueueImpl) :
    s.updateCrossThreadQueueStateLocked.delayed_fence = s.delayed_fence := rfl

theorem onQueueUnblocked_fields (s : TaskQueueImpl) :
    s.onQueueUnblocked.delayed_fence = s.delayed_fence ∧
    s.onQueueUnblocked.current_fence = s.current_fence ∧
    s.onQueueUnblocked.delayed_incoming_queue = s.delayed_incoming_queue ∧
    s.onQueueUnblocked.delayed_work_queue = s.delayed_work_queue ∧
    s.onQueueUnblocked.immediate_work_queue = s.immediate_work_queue ∧
    s.onQueueUnblocked.is_enabled = s.is_enabled ∧
    s.onQueueUnblocked.immediate_incoming_queue
      = s.immediate_incoming_queue ∧
    s.onQueueUnblocked.next_sequence_number
      = s.next_sequence_number + 1 := by
  unfold TaskQueueImpl.onQueueUnblocked
  by_cases h : s.priority ≤ kNormalPriority <;> simp [h]

theorem mswu_delayed_fence (s : TaskQueueImpl) (b : Bool) :
    (s.maybeScheduleWorkOnUnblocked b).1.delayed_fence
      = s.delayed_fence := by
  unfold TaskQueueImpl.maybeScheduleWorkOnUnblocked
  split
  · exact (onQueueUnblocked_fields s).1
  · rfl

theorem mswu_current_fence (s : TaskQueueImpl) (b : Bool) :
    (s.maybeScheduleWorkOnUnblocked b).1.current_fence
      = s.current_fence := by
  unfold TaskQueueImpl.maybeScheduleWorkOnUnblocked
  split
  · exact (onQueueUnblocked_fields s).2.1
  · rfl

theorem mswu_delayed_incoming_queue (s : TaskQueueImpl) (b : Bool) :
    (s.maybeScheduleWorkOnUnblocked b).1.delayed_incoming_queue
      = s.delayed_incoming_queue := by
  unfold TaskQueueImpl.maybeScheduleWorkOnUnblocked
  split
  · exact (onQueueUnblocked_fields s).2.2.1
  · rfl

theorem mswu_delayed_work_queue (s : TaskQueueImpl) (b : Bool) :
    (s.maybeScheduleWorkOnUnblocked b).1.delayed_work_queue
      = s.delayed_work_queue := by
  unfold TaskQueueImpl.maybeScheduleWorkOnUnblocked
  split
  · exact (onQueueUnblocked_fields s).2.2.2.1
  · rfl

theorem mswu_is_enabled (s : TaskQueueImpl) (b : Bool) :
    (s.maybeScheduleWorkOnUnblocked b).1.is_enabled = s.is_enabled := by
  unfold TaskQueueImpl.maybeScheduleWorkOnUnblocked
  split
  · exact (onQueueUnblocked_fields s).2.2.2.2.2.1
  · rfl

theorem mswu_nsn_ge (s : TaskQueueImpl) (b : Bool) :
    s.next_sequence_number
      ≤ (s.maybeScheduleWorkOnUnblocked b).1.next_sequence_number := by
  unfold TaskQueueImpl.maybeScheduleWorkOnUnblocked
  split
  · rw [(onQueueUnblocked_fields s).2.2.2.2.2.2.2]
    omega
  · exact Nat.le_refl _

/-! ## Claim theorems -/

/-- C10: `HasActiveFence` returns true iff either `current_fence` is set,
or a delayed fence is pending whose deadline is strictly earlier than the
current time of the time domain. -/
theorem c10_hasActiveFence_iff (s : TaskQueueImpl) (now : Nat) :
    s.hasActiveFence now = true ↔
      (s.current_fence ≠ 0 ∨
        ∃ df, s.delayed_fence = some df ∧ df < now) := by
  unfold TaskQueueImpl.hasActiveFence
  cases h : s.delayed_fence with
  | none => simp
  | some df =>
    by_cases hlt : df < now <;> simp [hlt]

/-- C1: with a fence installed (and mirrored into both work queues, as
`InsertFence` does, and distinct from every task enqueue order, as the
monotone allocation guarantees), `BlockedByFence` returns true iff none of
the immediate work queue, the delayed work queue and the front of the
immediate incoming queue holds a task with enqueue order strictly below
`current_fence`. -/
theorem c1_blockedByFence_iff (s : TaskQueueImpl) (f : Nat)
    (hf : s.current_fence = f) (hne : f ≠ 0)
    (hiw : s.immediate_work_queue.fence = f)
    (hdw : s.delayed_work_queue.fence = f)
    (hfront : ∀ t ∈ s.immediate_incoming_queue.head?,
      t.enqueue_order ≠ f) :
    s.blockedByFence = true ↔
      ((∀ t ∈ s.immediate_work_queue.tasks, ¬t.enqueue_order < f) ∧
       (∀ t ∈ s.delayed_work_queue.tasks, ¬t.enqueue_order < f) ∧
       (∀ t ∈ s.immediate_incoming_queue.head?,
         ¬t.enqueue_order < f)) := by
  unfold TaskQueueImpl.blockedByFence
  unfold WorkQueue.blockedByFence
  rw [hf, hiw, hdw]
  cases hq : s.immediate_incoming_queue with
  | nil =>
    simp [hne, Nat.not_lt]
  | cons front rest =>
    have hfr : front.enqueue_order ≠ f := by
      apply hfront
      simp [hq]
    simp [hne, Nat.not_lt]
    constructor
    · rintro ⟨⟨h1, h2⟩, h3⟩
      exact ⟨h1, h2, by omega⟩
    · rintro ⟨h1, h2, h3⟩
      exact ⟨⟨h1, h2⟩, by omega⟩

/-- C1 witness: a concrete blocked state. -/
theorem c1_blockedByFence_iff_witness :
    (let s : TaskQueueImpl :=
      { immediate_work_queue := { tasks := [], fence := 7 },
        delayed_work_queue :=
          { tasks := [{ cancelled := false, is_high_res := false,
                        delayed_run_time := 0, sequence_num := 9,
                        enqueue_order := 9, queue_time := 0 }], fence := 7 },
        delayed_incoming_queue := { queue_ := [],
                                    pending_high_res_tasks := 0 },
        current_fence := 7, delayed_fence := none, is_enabled := true,
        priority := 4, scheduled_wake_up := none,
        has_task_queue_observer := false, delayed_fence_allowed := false,
        enqueue_order_at_which_we_became_unblocked := 0,
        enqueue_order_at_which_we_became_unblocked_with_normal_priority := 0,
        immediate_incoming_queue := [], immediate_work_queue_empty := true,
        post_immediate_task_should_schedule_work := false,
        empty_queues_to_reload_flag := false, next_sequence_number := 10 }
    s.blockedByFence = true ↔
      ((∀ t ∈ s.immediate_work_queue.tasks, ¬t.enqueue_order < 7) ∧
       (∀ t ∈ s.delayed_work_queue.tasks, ¬t.enqueue_order < 7) ∧
       (∀ t ∈ s.immediate_incoming_queue.head?,
         ¬t.enqueue_order < 7))) := by
  exact c1_blockedByFence_iff _ 7 rfl (by decide) rfl rfl (by decide)

/-- C2: an immediate post appends the task to `immediate_incoming_queue`
with enqueue order equal to the sequence number freshly allocated inside
the lock; when both the incoming queue and the (cached) immediate work
queue emptiness hold it sets the reload flag and captures
`should_schedule_work` from the cached hint; `ScheduleWork` runs after the
lock exactly when that captured value is true; and the cached hint, as
recomputed by `UpdateCrossThreadQueueStateLocked`, is true iff the queue
is enabled and either has a task-queue observer or no current fence. -/
theorem c2_postImmediateTaskImpl (s : TaskQueueImpl) (pt : PostedTask)
    (addQueueTime : Bool) (now : Nat) :
    (s.postImmediateTaskImpl pt addQueueTime now).1.immediate_incoming_queue
        = s.immediate_incoming_queue ++
          [mkImmediateTask pt
            (if addQueueTime || s.delayed_fence_allowed then now else 0)
            s.next_sequence_number] ∧
    (∀ t ∈ (s.postImmediateTaskImpl pt addQueueTime
        now).1.immediate_incoming_queue.getLast?,
      t.enqueue_order = s.next_sequence_number) ∧
    (s.postImmediateTaskImpl pt addQueueTime now).1.next_sequence_number
        = s.next_sequence_number + 1 ∧
    (s.postImmediateTaskImpl pt addQueueTime
        now).1.empty_queues_to_reload_flag
        = (if s.immediate_incoming_queue.isEmpty &&
              s.immediate_work_queue_empty then true
           else s.empty_queues_to_reload_flag) ∧
    (s.postImmediateTaskImpl pt addQueueTime now).2
        = (s.immediate_incoming_queue.isEmpty &&
            s.immediate_work_queue_empty &&
            s.post_immediate_task_should_schedule_work) ∧
    s.updateCrossThreadQueueStateLocked.post_immediate_task_should_schedule_work
        = (s.is_enabled &&
            (s.has_task_queue_observer || s.current_fence = 0)) := by
  unfold TaskQueueImpl.postImmediateTaskImpl
    TaskQueueImpl.updateCrossThreadQueueStateLocked
  by_cases hw : s.immediate_incoming_queue.isEmpty &&
      s.immediate_work_queue_empty <;>
    cases hobs : s.has_task_queue_observer <;>
    cases hen : s.is_enabled <;>
    simp [hw, hobs, hen, List.getLast?_concat, Bool.and_assoc,
      mkImmediateTask]

/-- C4: `GuardedTaskPoster::PostTask` returns true iff the task was
enqueued (a rejected post leaves the poster unchanged, dropping the
callback), and once `UnregisterTaskQueue` has shut the operations gate,
every `PostDelayedTask` or `PostNonNestableDelayedTask` returns false and
enqueues nothing. -/
theorem c4_guardedTaskPoster (p : GuardedTaskPoster) (t : PostedTask)
    (c : Bool) :
    ((p.postTask t).2 = true ↔
      (p.postTask t).1.posted = p.posted ++ [t]) ∧
    ((p.postTask t).2 = false → (p.postTask t).1 = p) ∧
    p.unregisterTaskQueue.postDelayedTask c
      = (p.unregisterTaskQueue, false) ∧
    p.unregisterTaskQueue.postNonNestableDelayedTask c
      = (p.unregisterTaskQueue, false) := by
  unfold GuardedTaskPoster.postDelayedTask
    GuardedTaskPoster.postNonNestableDelayedTask
    GuardedTaskPoster.unregisterTaskQueue
    GuardedTaskPoster.shutdownAndWaitForZeroOperations
    GuardedTaskPoster.postTask
  cases hg : p.operations_controller_ <;>
    simp [tryBeginOperation]

/-- C4 witness: a concrete accepting poster. -/
theorem c4_guardedTaskPoster_witness :
    (let p : GuardedTaskPoster :=
      { operations_controller_ := .acceptingOperations, posted := [] }
    let t : PostedTask := { cancelled := false, nestable := true }
    ((p.postTask t).2 = true ↔
      (p.postTask t).1.posted = p.posted ++ [t]) ∧
    ((p.postTask t).2 = false → (p.postTask t).1 = p) ∧
    p.unregisterTaskQueue.postDelayedTask false
      = (p.unregisterTaskQueue, false) ∧
    p.unregisterTaskQueue.postNonNestableDelayedTask false
      = (p.unregisterTaskQueue, false)) :=
  c4_guardedTaskPoster _ _ false

/-- C8: `TimerBase::Reset` posts a task with the current delay when no
scheduled task is pending; otherwise it computes the new desired run time
(`Now() + delay` for a positive delay, null otherwise) and, when that is
not earlier than the scheduled run time, only records it and sets
`is_running` without posting, while when it is earlier it abandons the
scheduled task and posts a new one with the current delay. -/
theorem c8_timerReset (s : TimerBase) (now : Int) :
    (s.has_scheduled_task = false →
      (s.reset now).2 = some s.delay ∧
      (s.reset now).1.has_scheduled_task = true ∧
      (s.reset now).1.is_running = true) ∧
    (s.has_scheduled_task = true →
      s.scheduled_run_time ≤ (if 0 < s.delay then now + s.delay else 0) →
      (s.reset now).2 = none ∧
      (s.reset now).1 = { s with
        desired_run_time := if 0 < s.delay then now + s.delay else 0,
        is_running := true }) ∧
    (s.has_scheduled_task = true →
      (if 0 < s.delay then now + s.delay else 0) < s.scheduled_run_time →
      (s.reset now).2 = some s.delay ∧
      (s.reset now).1 = { s with
        has_scheduled_task := true,
        is_running := true,
        desired_run_time := if 0 < s.delay then now + s.delay else 0,
        scheduled_run_time :=
          if 0 < s.delay then now + s.delay else 0 }) := by
  unfold TimerBase.reset TimerBase.scheduleNewTask
  by_cases hs : s.has_scheduled_task <;>
    by_cases hd : (0 : Int) < s.delay <;>
    simp [hs, hd] <;>
    refine ⟨fun h => ?_, fun h => ?_⟩ <;>
    first
      | (rw [if_pos h]; exact ⟨rfl, rfl⟩)
      | (rw [if_neg (by omega)]; exact ⟨rfl, rfl⟩)

/-- C8 witness: a running timer with a pending scheduled task. -/
theorem c8_timerReset_witness :
    (let s : TimerBase :=
      { has_scheduled_task := true, delay := 100, desired_run_time := 50,
        scheduled_run_time := 50, is_running := true }
    (s.has_scheduled_task = false →
      (s.reset 10).2 = some s.delay ∧
      (s.reset 10).1.has_scheduled_task = true ∧
      (s.reset 10).1.is_running = true) ∧
    (s.has_scheduled_task = true →
      s.scheduled_run_time ≤ (if 0 < s.delay then 10 + s.delay else 0) →
      (s.reset 10).2 = none ∧
      (s.reset 10).1 = { s with
        desired_run_time := if 0 < s.delay then 10 + s.delay else 0,
        is_running := true }) ∧
    (s.has_scheduled_task = true →
      (if 0 < s.delay then 10 + s.delay else 0) < s.scheduled_run_time →
      (s.reset 10).2 = some s.delay ∧
      (s.reset 10).1 = { s with
        has_scheduled_task := true,
        is_running := true,
        desired_run_time := if 0 < s.delay then 10 + s.delay else 0,
        scheduled_run_time :=
          if 0 < s.delay then 10 + s.delay else 0 })) :=
  c8_timerReset _ 10

/-! ## C5: the high-resolution counter invariant -/

/-- Invariant P10 of the spec: the counter equals the number of
high-resolution tasks currently stored in the delayed incoming queue. -/
def DIQInvariant (q : DelayedIncomingQueue) : Prop :=
  q.pending_high_res_tasks =
    (q.queue_.countP fun t => t.is_high_res : Nat)

theorem countP_insertSorted (p : Task → Bool) (t : Task) (l : List Task) :
    (insertSorted t l).countP p
      = l.countP p + (if p t then 1 else 0) := by
  induction l with
  | nil => simp [insertSorted, List.countP_cons]
  | cons h rest ih =>
    unfold insertSorted
    by_cases hle : taskLe t h <;>
      simp [hle, List.countP_cons, ih] <;>
      omega

theorem countP_makeHeap (p : Task → Bool) (c : List Task) :
    (makeHeap c).countP p = c.countP p := by
  induction c with
  | nil => rfl
  | cons h rest ih =>
    simp only [makeHeap, List.foldr] at ih ⊢
    rw [countP_insertSorted, ih, List.countP_cons]

theorem countP_split (q p : Task → Bool) (c : List Task) :
    c.countP (fun t => p t && !q t) + c.countP (fun t => p t && q t)
      = c.countP p := by
  induction c with
  | nil => rfl
  | cons h rest ih =>
    cases hq : q h <;> cases hp : p h <;>
      simp [List.countP_cons, hq, hp] <;> omega

/-- C5: `pending_high_res_tasks_` equals the number of high-resolution
tasks in the queue, and `push`, `pop`, `swap` and `SweepCancelledTasks`
all preserve that equality. -/
theorem c5_highResCounter (q r : DelayedIncomingQueue) (t : Task)
    (hq : DIQInvariant q) (hr : DIQInvariant r) :
    DIQInvariant (q.push t) ∧ DIQInvariant q.pop ∧
    DIQInvariant (q.swap r).1 ∧ DIQInvariant (q.swap r).2 ∧
    DIQInvariant q.sweepCancelledTasks := by
  unfold DIQInvariant at hq hr ⊢
  refine ⟨?_, ?_, hr, hq, ?_⟩
  · unfold DelayedIncomingQueue.push
    rw [countP_insertSorted]
    cases h : t.is_high_res <;> simp [h, hq] <;> push_cast <;> omega
  · unfold DelayedIncomingQueue.pop
    cases hc : q.queue_ with
    | nil => simpa [hc] using hq
    | cons h rest =>
      rw [hc, List.countP_cons] at hq
      cases hh : h.is_high_res <;> simp [hh, hq] <;> push_cast <;> omega
  · unfold DelayedIncomingQueue.sweepCancelledTasks
      pqueueSweepCancelledTasks
    have hsplit := countP_split (fun u => u.cancelled)
      (fun u => u.is_high_res) q.queue_
    by_cases hdel : (q.queue_.filter fun u => u.cancelled).isEmpty <;>
      simp [hdel, hq, List.countP_filter, ← List.countP_eq_length_filter,
        countP_makeHeap] <;>
      push_cast <;>
      omega

/-- C5 witness: a queue of one high-resolution task satisfying the
invariant. -/
theorem c5_highResCounter_witness :
    (let t : Task := { cancelled := true, is_high_res := true,
                       delayed_run_time := 3, sequence_num := 5,
                       enqueue_order := 0, queue_time := 0 }
    let q : DelayedIncomingQueue :=
      { queue_ := [t], pending_high_res_tasks := 1 }
    let r : DelayedIncomingQueue :=
      { queue_ := [], pending_high_res_tasks := 0 }
    DIQInvariant (q.push t) ∧ DIQInvariant q.pop ∧
    DIQInvariant (q.swap r).1 ∧ DIQInvariant (q.swap r).2 ∧
    DIQInvariant q.sweepCancelledTasks) :=
  c5_highResCounter _ _
    { cancelled := true, is_high_res := true, delayed_run_time := 3,
      sequence_num := 5, enqueue_order := 0, queue_time := 0 }
    (by unfold DIQInvariant; decide) (by unfold DIQInvariant; decide)

/-! ## C6: memory reclamation sweeps all cancelled tasks -/

theorem mem_insertSorted (x t : Task) (l : List Task) :
    x ∈ insertSorted t l ↔ x = t ∨ x ∈ l := by
  induction l with
  | nil => simp [insertSorted]
  | cons h rest ih =>
    unfold insertSorted
    by_cases hle : taskLe t h <;> simp [hle, ih] <;> tauto

theorem mem_makeHeap (x : Task) (c : List Task) :
    x ∈ makeHeap c ↔ x ∈ c := by
  induction c with
  | nil => simp [makeHeap]
  | cons h rest ih =>
    simp only [makeHeap, List.foldr] at ih ⊢
    rw [mem_insertSorted]
    simp [ih]

theorem sweep_all_kept (c : List Task) :
    ∀ t ∈ (pqueueSweepCancelledTasks c).1, t.cancelled = false := by
  intro t ht
  unfold pqueueSweepCancelledTasks at ht
  by_cases hdel : (c.filter fun u => u.cancelled).isEmpty = true
  · rw [if_pos hdel] at ht
    simpa using (List.mem_filter.mp ht).2
  · rw [if_neg hdel] at ht
    rw [mem_makeHeap] at ht
    simpa using (List.mem_filter.mp ht).2

theorem sweep_nothing (c : List Task)
    (hall : ∀ t ∈ c, t.cancelled = false) :
    (pqueueSweepCancelledTasks c).1 = c := by
  unfold pqueueSweepCancelledTasks
  have hfil : c.filter (fun u => u.cancelled) = [] :=
    List.filter_eq_nil_iff.mpr fun t ht => by simp [hall t ht]
  rw [if_pos (by simp [hfil])]
  exact List.filter_eq_self.mpr fun t ht => by simp [hall t ht]

theorem sweep_removed (c : List Task)
    (hex : ∃ t ∈ c, t.cancelled = true) :
    (pqueueSweepCancelledTasks c).1
      = makeHeap (c.filter fun t => !t.cancelled) := by
  obtain ⟨t, ht, hc⟩ := hex
  have hmem : t ∈ c.filter fun u => u.cancelled :=
    List.mem_filter.mpr ⟨ht, hc⟩
  unfold pqueueSweepCancelledTasks
  rw [if_neg fun hemp => by
    rw [List.isEmpty_iff] at hemp
    rw [hemp] at hmem
    exact absurd hmem (List.not_mem_nil t)]

/-- Reduction of `ReclaimMemory` to the sweep of the underlying storage. -/
theorem reclaimMemory_queue (s : TaskQueueImpl) (now : Nat) :
    (s.reclaimMemory now).delayed_incoming_queue.queue_
      = if s.delayed_incoming_queue.queue_.isEmpty then
          s.delayed_incoming_queue.queue_
        else (pqueueSweepCancelledTasks
          s.delayed_incoming_queue.queue_).1 := by
  unfold TaskQueueImpl.reclaimMemory TaskQueueImpl.updateDelayedWakeUp
    DelayedIncomingQueue.sweepCancelledTasks
  by_cases hq : s.delayed_incoming_queue.queue_.isEmpty = true <;>
    simp [hq]

/-- C6: after `ReclaimMemory` no cancelled task remains in
`delayed_incoming_queue`; a sweep that removes nothing leaves the
underlying storage unchanged (no re-heapify, order preserved); and when at
least one task is cancelled the storage is the re-heapified kept tasks. -/
theorem c6_reclaimMemory (s : TaskQueueImpl) (now : Nat) :
    (∀ t ∈ (s.reclaimMemory now).delayed_incoming_queue.queue_,
      t.cancelled = false) ∧
    ((∀ t ∈ s.delayed_incoming_queue.queue_, t.cancelled = false) →
      (s.reclaimMemory now).delayed_incoming_queue.queue_
        = s.delayed_incoming_queue.queue_) ∧
    ((∃ t ∈ s.delayed_incoming_queue.queue_, t.cancelled = true) →
      (s.reclaimMemory now).delayed_incoming_queue.queue_
        = makeHeap (s.delayed_incoming_queue.queue_.filter
            fun t => !t.cancelled)) := by
  rw [reclaimMemory_queue]
  by_cases hq : s.delayed_incoming_queue.queue_.isEmpty = true
  · rw [List.isEmpty_iff] at hq
    refine ⟨?_, fun _ => ?_, fun hex => ?_⟩ <;> simp [hq] at *
  · rw [if_neg hq]
    refine ⟨sweep_all_kept _, sweep_nothing _, sweep_removed _⟩

/-! ## C9: at most one fence at a time -/

/-- Invariant: `current_fence` and the delayed fence are never both set. -/
def AtMostOneFence (s : TaskQueueImpl) : Prop :=
  s.current_fence = 0 ∨ s.delayed_fence = none

theorem insertFence_delayed_fence (s : TaskQueueImpl)
    (pos : InsertFencePosition) :
    (s.insertFence pos).1.delayed_fence = none := by
  unfold TaskQueueImpl.insertFence
  rw [mswu_delayed_fence]
  rfl

theorem removeFence_fences (s : TaskQueueImpl) :
    s.removeFence.1.current_fence = 0 ∧
    s.removeFence.1.delayed_fence = none := by
  unfold TaskQueueImpl.removeFence
  rw [mswu_current_fence, mswu_delayed_fence]
  exact ⟨rfl, rfl⟩

/-- C9: each of `InsertFence`, `InsertFenceAt`, `RemoveFence`,
`ActivateDelayedFenceIfNeeded` and the delayed-fence activation inside
`TakeImmediateIncomingQueueTasks` preserves the invariant that at most
one of `current_fence` and the delayed fence is set. -/
theorem c9_atMostOneFence (s : TaskQueueImpl) (pos : InsertFencePosition)
    (time now : Nat) (h : AtMostOneFence s) :
    AtMostOneFence (s.insertFence pos).1 ∧
    AtMostOneFence (s.insertFenceAt time) ∧
    AtMostOneFence s.removeFence.1 ∧
    AtMostOneFence (s.activateDelayedFenceIfNeeded now) ∧
    AtMostOneFence s.takeImmediateIncomingQueueTasks.1 := by
  refine ⟨Or.inr (insertFence_delayed_fence s pos), ?_, ?_, ?_, ?_⟩
  · exact Or.inl (by
      unfold TaskQueueImpl.insertFenceAt
      simpa using (removeFence_fences s).1)
  · exact Or.inr (removeFence_fences s).2
  · unfold TaskQueueImpl.activateDelayedFenceIfNeeded
    cases hdf : s.delayed_fence with
    | none => exact h
    | some df =>
      by_cases hlt : now < df
      · simpa [hlt] using h
      · simp [hlt]
        exact Or.inr rfl
  · unfold TaskQueueImpl.takeImmediateIncomingQueueTasks
    cases hdf : s.delayed_fence with
    | none =>
      exact Or.inr (by
        simp [TaskQueueImpl.updateCrossThreadQueueStateLocked])
    | some df =>
      cases hfind : s.immediate_incoming_queue.find?
          (fun (t : Task) => decide (df ≤ t.queue_time)) with
      | none =>
        rcases h with hc | hd
        · exact Or.inl (by
            simp [hfind, TaskQueueImpl.updateCrossThreadQueueStateLocked,
              hc])
        · rw [hdf] at hd
          exact absurd hd (by simp)
      | some task =>
        exact Or.inr (by
          simp [hfind, TaskQueueImpl.updateCrossThreadQueueStateLocked])

/-- C9 witness: a concrete state with only a delayed fence set. -/
theorem c9_atMostOneFence_witness :
    (let s : TaskQueueImpl :=
      { immediate_work_queue := { tasks := [], fence := 0 },
        delayed_work_queue := { tasks := [], fence := 0 },
        delayed_incoming_queue := { queue_ := [],
                                    pending_high_res_tasks := 0 },
        current_fence := 0, delayed_fence := some 50, is_enabled := true,
        priority := 4, scheduled_wake_up := none,
        has_task_queue_observer := false, delayed_fence_allowed := true,
        enqueue_order_at_which_we_became_unblocked := 0,
        enqueue_order_at_which_we_became_unblocked_with_normal_priority := 0,
        immediate_incoming_queue := [], immediate_work_queue_empty := true,
        post_immediate_task_should_schedule_work := false,
        empty_queues_to_reload_flag := false, next_sequence_number := 10 }
    AtMostOneFence (s.insertFence .now).1 ∧
    AtMostOneFence (s.insertFenceAt 60) ∧
    AtMostOneFence s.removeFence.1 ∧
    AtMostOneFence (s.activateDelayedFenceIfNeeded 55) ∧
    AtMostOneFence s.takeImmediateIncomingQueueTasks.1) :=
  c9_atMostOneFence _ .now 60 55 (by unfold AtMostOneFence; decide)

/-- Fixed example state used by several witnesses. -/
def exampleState : TaskQueueImpl :=
  { immediate_work_queue := { tasks := [], fence := 0 },
    delayed_work_queue := { tasks := [], fence := 0 },
    delayed_incoming_queue :=
      { queue_ := [{ cancelled := true, is_high_res := false,
                     delayed_run_time := 4, sequence_num := 3,
                     enqueue_order := 0, queue_time := 0 },
                   { cancelled := false, is_high_res := false,
                     delayed_run_time := 5, sequence_num := 4,
                     enqueue_order := 0, queue_time := 0 },
                   { cancelled := false, is_high_res := false,
                     delayed_run_time := 9, sequence_num := 6,
                     enqueue_order := 0, queue_time := 0 }],
        pending_high_res_tasks := 0 },
    current_fence := 0, delayed_fence := some 5, is_enabled := true,
    priority := 4, scheduled_wake_up := none,
    has_task_queue_observer := false, delayed_fence_allowed := true,
    enqueue_order_at_which_we_became_unblocked := 0,
    enqueue_order_at_which_we_became_unblocked_with_normal_priority := 0,
    immediate_incoming_queue := [], immediate_work_queue_empty := true,
    post_immediate_task_should_schedule_work := true,
    empty_queues_to_reload_flag := false, next_sequence_number := 7 }

/-- C10 witness: the delayed fence of the example state lies in the past
of clock reading 6, hence the fence counts as active. -/
theorem c10_hasActiveFence_iff_witness :
    exampleState.hasActiveFence 6 = true ↔
      (exampleState.current_fence ≠ 0 ∨
        ∃ df, exampleState.delayed_fence = some df ∧ df < 6) :=
  c10_hasActiveFence_iff exampleState 6

/-- C2 witness: posting an immediate task to the example state. -/
theorem c2_postImmediateTaskImpl_witness :
    (let s := exampleState
    let pt : PostedTask := { cancelled := false, nestable := true }
    (s.postImmediateTaskImpl pt false 6).1.immediate_incoming_queue
        = s.immediate_incoming_queue ++
          [mkImmediateTask pt
            (if false || s.delayed_fence_allowed then 6 else 0)
            s.next_sequence_number] ∧
    (∀ t ∈ (s.postImmediateTaskImpl pt false
        6).1.immediate_incoming_queue.getLast?,
      t.enqueue_order = s.next_sequence_number) ∧
    (s.postImmediateTaskImpl pt false 6).1.next_sequence_number
        = s.next_sequence_number + 1 ∧
    (s.postImmediateTaskImpl pt false 6).1.empty_queues_to_reload_flag
        = (if s.immediate_incoming_queue.isEmpty &&
              s.immediate_work_queue_empty then true
           else s.empty_queues_to_reload_flag) ∧
    (s.postImmediateTaskImpl pt false 6).2
        = (s.immediate_incoming_queue.isEmpty &&
            s.immediate_work_queue_empty &&
            s.post_immediate_task_should_schedule_work) ∧
    s.updateCrossThreadQueueStateLocked.post_immediate_task_should_schedule_work
        = (s.is_enabled &&
            (s.has_task_queue_observer || s.current_fence = 0))) :=
  c2_postImmediateTaskImpl exampleState _ false 6

/-- C6 witness: reclaiming memory on the example state, whose delayed
incoming queue holds one cancelled task. -/
theorem c6_reclaimMemory_witness :
    (∀ t ∈ (exampleState.reclaimMemory
        6).delayed_incoming_queue.queue_, t.cancelled = false) ∧
    ((∀ t ∈ exampleState.delayed_incoming_queue.queue_,
        t.cancelled = false) →
      (exampleState.reclaimMemory 6).delayed_incoming_queue.queue_
        = exampleState.delayed_incoming_queue.queue_) ∧
    ((∃ t ∈ exampleState.delayed_incoming_queue.queue_,
        t.cancelled = true) →
      (exampleState.reclaimMemory 6).delayed_incoming_queue.queue_
        = makeHeap (exampleState.delayed_incoming_queue.queue_.filter
            fun t => !t.cancelled)) :=
  c6_reclaimMemory exampleState 6

/-! ## C7: time-domain wake-up maintenance -/

theorem nodup_wakeUpHeapUpdate (h : List (Nat × DelayedWakeUp))
    (queue : Nat) (w : Option DelayedWakeUp)
    (hnd : (h.map Prod.fst).Nodup) :
    ((wakeUpHeapUpdate h queue w).map Prod.fst).Nodup := by
  rcases w with _ | wu <;> simp only [wakeUpHeapUpdate]
  · exact List.Nodup.sublist
      (List.Sublist.map Prod.fst (List.filter_sublist h)) hnd
  · by_cases hin : h.any fun e => e.1 = queue
    · rw [if_pos hin]
      have hmap : ((h.map fun e =>
          if e.1 = queue then (queue, wu) else e).map Prod.fst)
            = h.map Prod.fst := by
        rw [List.map_map]
        apply List.map_congr_left
        intro e _
        by_cases he : e.1 = queue <;> simp [he]
      rw [hmap]
      exact hnd
    · rw [if_neg hin]
      have hq : queue ∉ h.map Prod.fst := by
        simp only [List.any_eq_true, decide_eq_true_eq] at hin
        simp only [List.mem_map]
        rintro ⟨e, he, rfl⟩
        exact hin ⟨e, he, rfl⟩
      simp [List.nodup_append, hnd, hq]

theorem mem_wakeUpHeapUpdate (h : List (Nat × DelayedWakeUp))
    (queue : Nat) (w : Option DelayedWakeUp) :
    (queue ∈ (wakeUpHeapUpdate h queue w).map Prod.fst) ↔ w.isSome := by
  rcases w with _ | wu <;> simp only [wakeUpHeapUpdate]
  · simp only [Option.isSome_none, List.mem_map]
    constructor
    · rintro ⟨e, he, rfl⟩
      have := (List.mem_filter.mp he).2
      simp at this
    · intro hf
      exact absurd hf (by simp)
  · simp only [Option.isSome_some, iff_true]
    by_cases hin : h.any fun e => e.1 = queue
    · rw [if_pos hin]
      simp only [List.any_eq_true, decide_eq_true_eq] at hin
      obtain ⟨e, he, hq⟩ := hin
      rw [List.mem_map]
      exact ⟨(queue, wu), List.mem_map.mpr
        ⟨e, he, by simp [hq]⟩, rfl⟩
    · rw [if_neg hin]
      simp

/-- C7: `SetNextWakeUpForQueue` keeps at most one heap entry per queue
(present exactly when a wake-up was supplied); when the heap minimum is
unchanged no sequence-manager call is issued; otherwise `RequestDoWork`
is issued when the new minimum is at or before `lazy_now`, and
`SetNextDelayedDoWork` with the new minimum (`TimeTicks::Max()`, written
`none`, when the heap became empty) when it lies in the future. -/
theorem c7_setNextWakeUpForQueue (d : TimeDomain) (queue : Nat)
    (w : Option DelayedWakeUp) (now : Nat)
    (hnd : (d.delayed_wake_up_queue.map Prod.fst).Nodup) :
    (((d.setNextWakeUpForQueue queue w
        now).1.delayed_wake_up_queue.map Prod.fst).Nodup ∧
     ((queue ∈ (d.setNextWakeUpForQueue queue w
        now).1.delayed_wake_up_queue.map Prod.fst) ↔ w.isSome)) ∧
    (heapMinTime (d.setNextWakeUpForQueue queue w
        now).1.delayed_wake_up_queue
        = heapMinTime d.delayed_wake_up_queue →
      (d.setNextWakeUpForQueue queue w now).2 = .nothing) ∧
    (heapMinTime (d.setNextWakeUpForQueue queue w
        now).1.delayed_wake_up_queue
        ≠ heapMinTime d.delayed_wake_up_queue →
      (∀ m, heapMinTime (d.setNextWakeUpForQueue queue w
          now).1.delayed_wake_up_queue = some m →
        (m ≤ now → (d.setNextWakeUpForQueue queue w now).2
            = .requestDoWork) ∧
        (now < m → (d.setNextWakeUpForQueue queue w now).2
            = .setNextDelayedDoWork (some m))) ∧
      (heapMinTime (d.setNextWakeUpForQueue queue w
          now).1.delayed_wake_up_queue = none →
        (d.setNextWakeUpForQueue queue w now).2
          = .setNextDelayedDoWork none)) := by
  unfold TimeDomain.setNextWakeUpForQueue
  refine ⟨⟨nodup_wakeUpHeapUpdate _ _ _ hnd,
    mem_wakeUpHeapUpdate _ _ _⟩, ?_, ?_⟩
  · intro heq
    simp only at heq ⊢
    rw [if_pos heq]
  · intro hne
    simp only at hne ⊢
    rw [if_neg hne]
    cases hmin : heapMinTime
        (wakeUpHeapUpdate d.delayed_wake_up_queue queue w) with
    | none =>
      refine ⟨fun m hm => ?_, fun _ => by simp⟩
      simp at hm
    | some m0 =>
      refine ⟨fun m hm => ?_, fun h => by simp at h⟩
      obtain rfl : m0 = m := by simpa using hm
      constructor
      · intro hle
        simp [hle]
      · intro hlt
        have hn : ¬m0 ≤ now := by omega
        simp [hn]

/-- C7 witness: updating the wake-up of queue 1 to an earlier time than
the heap minimum while the clock reads 0 issues a
`SetNextDelayedDoWork`. -/
theorem c7_setNextWakeUpForQueue_witness :
    (let d : TimeDomain :=
      { delayed_wake_up_queue :=
          [(1, { time := 20, sequence_num := 3,
                 high_resolution := false }),
           (2, { time := 30, sequence_num := 4,
                 high_resolution := false })],
        pending_high_res_wake_up_count := 0 }
    let w : Option DelayedWakeUp :=
      some { time := 10, sequence_num := 5, high_resolution := false }
    (((d.setNextWakeUpForQueue 1 w
        0).1.delayed_wake_up_queue.map Prod.fst).Nodup ∧
     ((1 ∈ (d.setNextWakeUpForQueue 1 w
        0).1.delayed_wake_up_queue.map Prod.fst) ↔ w.isSome)) ∧
    (heapMinTime (d.setNextWakeUpForQueue 1 w
        0).1.delayed_wake_up_queue
        = heapMinTime d.delayed_wake_up_queue →
      (d.setNextWakeUpForQueue 1 w 0).2 = .nothing) ∧
    (heapMinTime (d.setNextWakeUpForQueue 1 w
        0).1.delayed_wake_up_queue
        ≠ heapMinTime d.delayed_wake_up_queue →
      (∀ m, heapMinTime (d.setNextWakeUpForQueue 1 w
          0).1.delayed_wake_up_queue = some m →
        (m ≤ 0 → (d.setNextWakeUpForQueue 1 w 0).2
            = .requestDoWork) ∧
        (0 < m → (d.setNextWakeUpForQueue 1 w 0).2
            = .setNextDelayedDoWork (some m))) ∧
      (heapMinTime (d.setNextWakeUpForQueue 1 w
          0).1.delayed_wake_up_queue = none →
        (d.setNextWakeUpForQueue 1 w 0).2
          = .setNextDelayedDoWork none))) :=
  c7_setNextWakeUpForQueue _ 1 _ 0 (by decide)

/-! ## C3: promotion of ready delayed tasks

Ghost definitions and lemmas describing `MoveReadyDelayedTasksToWorkQueue`.
`pDue` is the loop-continuation test: a top task is consumed while it is
cancelled or due.  `movedTasks` recomputes, in lockstep with
`moveReadyLoop`, the list of tasks the loop pushes onto the delayed work
queue. -/

/-- Continuation test of the promotion loop: the top task is consumed
while it is cancelled or due at `now`. -/
def pDue (now : Nat) (t : Task) : Bool :=
  t.cancelled || decide (t.delayed_run_time ≤ now)

/-- Erase the enqueue order of a task (used to compare moved tasks with
their originals, whose enqueue order was unassigned). -/
def stripEo (t : Task) : Task :=
  { t with enqueue_order := 0 }

/-- Ghost companion of `moveReadyLoop`: the tasks pushed onto the delayed
work queue, with their freshly assigned enqueue orders. -/
def movedTasks (now : Nat) : List Task → TaskQueueImpl → List Task
  | [], _ => []
  | task :: rest, s =>
    if task.cancelled then
      movedTasks now rest
        { s with delayed_incoming_queue := s.delayed_incoming_queue.pop }
    else if now < task.delayed_run_time then []
    else s.promotedTask task :: movedTasks now rest (s.promoteTask task)

theorem insertFence_now_fields (s : TaskQueueImpl) :
    (s.insertFence .now).1.current_fence = s.next_sequence_number ∧
    (s.insertFence .now).1.delayed_incoming_queue
      = s.delayed_incoming_queue ∧
    (s.insertFence .now).1.delayed_work_queue.tasks
      = s.delayed_work_queue.tasks ∧
    s.next_sequence_number + 1
      ≤ (s.insertFence .now).1.next_sequence_number := by
  refine ⟨?_, ?_, ?_, ?_⟩ <;>
    simp only [TaskQueueImpl.insertFence, mswu_current_fence,
      mswu_delayed_incoming_queue, mswu_delayed_work_queue]
  · rfl
  · rfl
  · rfl
  · refine le_trans ?_ (mswu_nsn_ge _ _)
    exact Nat.le_refl _

theorem activate_none (s : TaskQueueImpl) (tnow : Nat)
    (h : s.delayed_fence = none) :
    s.activateDelayedFenceIfNeeded tnow = s := by
  simp only [TaskQueueImpl.activateDelayedFenceIfNeeded, h]

theorem activate_future (s : TaskQueueImpl) (tnow df : Nat)
    (h : s.delayed_fence = some df) (hlt : tnow < df) :
    s.activateDelayedFenceIfNeeded tnow = s := by
  simp only [TaskQueueImpl.activateDelayedFenceIfNeeded, h]
  exact if_pos hlt

theorem activate_fire (s : TaskQueueImpl) (tnow df : Nat)
    (h : s.delayed_fence = some df) (hge : df ≤ tnow) :
    (s.activateDelayedFenceIfNeeded tnow).delayed_fence = none ∧
    (s.activateDelayedFenceIfNeeded tnow).current_fence
      = s.next_sequence_number ∧
    s.next_sequence_number + 1
      ≤ (s.activateDelayedFenceIfNeeded tnow).next_sequence_number := by
  simp only [TaskQueueImpl.activateDelayedFenceIfNeeded, h]
  rw [if_neg (by omega : ¬tnow < df)]
  exact ⟨rfl, (insertFence_now_fields s).1, (insertFence_now_fields s).2.2.2⟩

theorem activate_diq (s : TaskQueueImpl) (tnow : Nat) :
    (s.activateDelayedFenceIfNeeded tnow).delayed_incoming_queue
      = s.delayed_incoming_queue := by
  cases h : s.delayed_fence with
  | none => rw [activate_none s tnow h]
  | some df =>
    by_cases hlt : tnow < df
    · rw [activate_future s tnow df h hlt]
    · simp only [TaskQueueImpl.activateDelayedFenceIfNeeded, h]
      rw [if_neg hlt]
      exact (insertFence_now_fields s).2.1

theorem activate_dwq_tasks (s : TaskQueueImpl) (tnow : Nat) :
    (s.activateDelayedFenceIfNeeded tnow).delayed_work_queue.tasks
      = s.delayed_work_queue.tasks := by
  cases h : s.delayed_fence with
  | none => rw [activate_none s tnow h]
  | some df =>
    by_cases hlt : tnow < df
    · rw [activate_future s tnow df h hlt]
    · simp only [TaskQueueImpl.activateDelayedFenceIfNeeded, h]
      rw [if_neg hlt]
      exact (insertFence_now_fields s).2.2.1

theorem activate_nsn_ge (s : TaskQueueImpl) (tnow : Nat) :
    s.next_sequence_number
      ≤ (s.activateDelayedFenceIfNeeded tnow).next_sequence_number := by
  cases h : s.delayed_fence with
  | none => rw [activate_none s tnow h]
  | some df =>
    by_cases hlt : tnow < df
    · rw [activate_future s tnow df h hlt]
    · simp only [TaskQueueImpl.activateDelayedFenceIfNeeded, h]
      rw [if_neg hlt]
      exact le_trans (Nat.le_succ _) (insertFence_now_fields s).2.2.2

theorem promoteTask_dwq_tasks (s : TaskQueueImpl) (task : Task) :
    (s.promoteTask task).delayed_work_queue.tasks
      = s.delayed_work_queue.tasks ++ [s.promotedTask task] := by
  simp [TaskQueueImpl.promoteTask, WorkQueue.push, activate_dwq_tasks]

theorem promoteTask_nsn (s : TaskQueueImpl) (task : Task) :
    (s.promoteTask task).next_sequence_number
      = (s.activateDelayedFenceIfNeeded
          task.delayed_run_time).next_sequence_number + 1 := rfl

theorem promoteTask_diq (s : TaskQueueImpl) (task : Task) :
    (s.promoteTask task).delayed_incoming_queue
      = s.delayed_incoming_queue.pop := by
  have : (s.promoteTask task).delayed_incoming_queue
      = (s.activateDelayedFenceIfNeeded
          task.delayed_run_time).delayed_incoming_queue.pop := rfl
  rw [this, activate_diq]

theorem promoteTask_delayed_fence (s : TaskQueueImpl) (task : Task) :
    (s.promoteTask task).delayed_fence
      = (s.activateDelayedFenceIfNeeded
          task.delayed_run_time).delayed_fence := rfl

theorem promoteTask_current_fence (s : TaskQueueImpl) (task : Task) :
    (s.promoteTask task).current_fence
      = (s.activateDelayedFenceIfNeeded
          task.delayed_run_time).current_fence := rfl

theorem promotedTask_eo (s : TaskQueueImpl) (task : Task) :
    (s.promotedTask task).enqueue_order
      = (s.activateDelayedFenceIfNeeded
          task.delayed_run_time).next_sequence_number := rfl

theorem promotedTask_run (s : TaskQueueImpl) (task : Task) :
    (s.promotedTask task).delayed_run_time = task.delayed_run_time := rfl

theorem stripEo_promotedTask (s : TaskQueueImpl) (task : Task) :
    stripEo (s.promotedTask task) = stripEo task := rfl

theorem promoteTask_nsn_gt (s : TaskQueueImpl) (task : Task) :
    s.next_sequence_number < (s.promoteTask task).next_sequence_number := by
  have h := activate_nsn_ge s task.delayed_run_time
  rw [promoteTask_nsn]
  omega

theorem moveReadyLoop_dwq (now : Nat) (pend : List Task) :
    ∀ s : TaskQueueImpl,
      (moveReadyLoop now pend s).delayed_work_queue.tasks
        = s.delayed_work_queue.tasks ++ movedTasks now pend s := by
  induction pend with
  | nil =>
    intro s
    simp [moveReadyLoop, movedTasks]
  | cons task rest ih =>
    intro s
    simp only [moveReadyLoop, movedTasks]
    by_cases hc : task.cancelled = true
    · rw [if_pos hc, if_pos hc]
      exact ih _
    · rw [if_neg hc, if_neg hc]
      by_cases hrun : now < task.delayed_run_time
      · rw [if_pos hrun, if_pos hrun]
        simp
      · rw [if_neg hrun, if_neg hrun]
        rw [ih (s.promoteTask task), promoteTask_dwq_tasks]
        simp

theorem movedTasks_stripEo (now : Nat) (pend : List Task) :
    ∀ s : TaskQueueImpl,
      (movedTasks now pend s).map stripEo
        = ((pend.takeWhile (pDue now)).filter
            fun t => !t.cancelled).map stripEo := by
  induction pend with
  | nil =>
    intro s
    simp [movedTasks]
  | cons task rest ih =>
    intro s
    simp only [movedTasks]
    by_cases hc : task.cancelled = true
    · rw [if_pos hc]
      have hp : pDue now task = true := by simp [pDue, hc]
      rw [List.takeWhile_cons_of_pos hp, List.filter_cons_of_neg
        (by simp [hc])]
      exact ih _
    · rw [if_neg hc]
      by_cases hrun : now < task.delayed_run_time
      · rw [if_pos hrun]
        have hp : pDue now task = false := by
          simp [pDue]
          constructor
          · simpa using hc
          · omega
        rw [List.takeWhile_cons_of_neg (by simp [hp])]
        simp
      · rw [if_neg hrun]
        have hp : pDue now task = true := by
          simp [pDue]
          omega
        rw [List.takeWhile_cons_of_pos hp, List.filter_cons_of_pos
          (by simpa using hc)]
        rw [List.map_cons, List.map_cons, ih (s.promoteTask task),
          stripEo_promotedTask]

theorem moveReadyLoop_nsn_ge (now : Nat) (pend : List Task) :
    ∀ s : TaskQueueImpl,
      s.next_sequence_number
        ≤ (moveReadyLoop now pend s).next_sequence_number := by
  induction pend with
  | nil =>
    intro s
    simp [moveReadyLoop]
  | cons task rest ih =>
    intro s
    simp only [moveReadyLoop]
    by_cases hc : task.cancelled = true
    · rw [if_pos hc]
      exact ih
        { s with delayed_incoming_queue := s.delayed_incoming_queue.pop }
    · rw [if_neg hc]
      by_cases hrun : now < task.delayed_run_time
      · rw [if_pos hrun]
      · rw [if_neg hrun]
        exact le_trans (le_of_lt (promoteTask_nsn_gt s task))
          (ih (s.promoteTask task))

theorem movedTasks_eo_bounds (now : Nat) (pend : List Task) :
    ∀ s : TaskQueueImpl, ∀ u ∈ movedTasks now pend s,
      s.next_sequence_number ≤ u.enqueue_order ∧
      u.enqueue_order
        < (moveReadyLoop now pend s).next_sequence_number := by
  induction pend with
  | nil =>
    intro s u hu
    simp [movedTasks] at hu
  | cons task rest ih =>
    intro s u hu
    simp only [movedTasks] at hu
    simp only [moveReadyLoop]
    by_cases hc : task.cancelled = true
    · rw [if_pos hc] at hu
      rw [if_pos hc]
      exact ih _ u hu
    · rw [if_neg hc] at hu
      rw [if_neg hc]
      by_cases hrun : now < task.delayed_run_time
      · rw [if_pos hrun] at hu
        simp at hu
      · rw [if_neg hrun] at hu
        rw [if_neg hrun]
        rcases List.mem_cons.mp hu with rfl | hu1
        · constructor
          · exact activate_nsn_ge s task.delayed_run_time
          · refine lt_of_lt_of_le ?_
              (moveReadyLoop_nsn_ge now rest (s.promoteTask task))
            rw [promotedTask_eo, promoteTask_nsn]
            omega
        · have h := ih (s.promoteTask task) u hu1
          exact ⟨le_trans (le_of_lt (promoteTask_nsn_gt s task)) h.1,
            h.2⟩

theorem movedTasks_pairwise (now : Nat) (pend : List Task) :
    ∀ s : TaskQueueImpl,
      ((movedTasks now pend s).map
        fun u => u.enqueue_order).Pairwise (· < ·) := by
  induction pend with
  | nil =>
    intro s
    simp [movedTasks]
  | cons task rest ih =>
    intro s
    simp only [movedTasks]
    by_cases hc : task.cancelled = true
    · rw [if_pos hc]
      exact ih _
    · rw [if_neg hc]
      by_cases hrun : now < task.delayed_run_time
      · rw [if_pos hrun]
        simp
      · rw [if_neg hrun]
        rw [List.map_cons, List.pairwise_cons]
        refine ⟨?_, ih _⟩
        intro eo heo
        rw [List.mem_map] at heo
        obtain ⟨u, hu, rfl⟩ := heo
        have h := (movedTasks_eo_bounds now rest (s.promoteTask task)
          u hu).1
        have h2 := promoteTask_nsn s task
        rw [promotedTask_eo]
        omega

theorem moveReadyLoop_fence_none (now : Nat) (pend : List Task) :
    ∀ s : TaskQueueImpl, s.delayed_fence = none →
      (moveReadyLoop now pend s).delayed_fence = none ∧
      (moveReadyLoop now pend s).current_fence = s.current_fence := by
  induction pend with
  | nil =>
    intro s h
    simp [moveReadyLoop, h]
  | cons task rest ih =>
    intro s h
    simp only [moveReadyLoop]
    by_cases hc : task.cancelled = true
    · rw [if_pos hc]
      exact ih _ h
    · rw [if_neg hc]
      by_cases hrun : now < task.delayed_run_time
      · rw [if_pos hrun]
        exact ⟨h, rfl⟩
      · rw [if_neg hrun]
        have hact : s.activateDelayedFenceIfNeeded task.delayed_run_time
            = s := activate_none s _ h
        have hdf : (s.promoteTask task).delayed_fence = none := by
          rw [promoteTask_delayed_fence, hact]
          exact h
        have h2 := ih (s.promoteTask task) hdf
        refine ⟨h2.1, ?_⟩
        rw [h2.2, promoteTask_current_fence, hact]

theorem moveReadyLoop_fence_some (now : Nat) (pend : List Task) :
    ∀ s : TaskQueueImpl, ∀ df : Nat, s.delayed_fence = some df →
      ((∀ u ∈ movedTasks now pend s, u.delayed_run_time < df) →
        (moveReadyLoop now pend s).delayed_fence = some df ∧
        (moveReadyLoop now pend s).current_fence = s.current_fence) ∧
      ((∃ u ∈ movedTasks now pend s, df ≤ u.delayed_run_time) →
        (moveReadyLoop now pend s).delayed_fence = none ∧
        s.next_sequence_number
          ≤ (moveReadyLoop now pend s).current_fence ∧
        ∀ u ∈ movedTasks now pend s, df ≤ u.delayed_run_time →
          (moveReadyLoop now pend s).current_fence
            < u.enqueue_order) := by
  induction pend with
  | nil =>
    intro s df h
    constructor
    · intro _
      simp [moveReadyLoop, h]
    · intro hex
      simp [movedTasks] at hex
  | cons task rest ih =>
    intro s df h
    simp only [moveReadyLoop, movedTasks]
    by_cases hc : task.cancelled = true
    · rw [if_pos hc, if_pos hc]
      exact ih _ df h
    · rw [if_neg hc, if_neg hc]
      by_cases hrun : now < task.delayed_run_time
      · rw [if_pos hrun, if_pos hrun]
        constructor
        · intro _
          exact ⟨h, rfl⟩
        · intro hex
          simp at hex
      · rw [if_neg hrun, if_neg hrun]
        by_cases hfire : df ≤ task.delayed_run_time
        · have hf := activate_fire s task.delayed_run_time df h hfire
          have hdfnone : (s.promoteTask task).delayed_fence = none := by
            rw [promoteTask_delayed_fence]
            exact hf.1
          have hnone := moveReadyLoop_fence_none now rest
            (s.promoteTask task) hdfnone
          constructor
          · intro hall
            exfalso
            have hx := hall (s.promotedTask task) (List.mem_cons_self _ _)
            rw [promotedTask_run] at hx
            omega
          · intro _
            refine ⟨hnone.1, ?_, ?_⟩
            · rw [hnone.2, promoteTask_current_fence, hf.2.1]
            · intro u hu hdu
              rcases List.mem_cons.mp hu with rfl | hu1
              · rw [hnone.2, promoteTask_current_fence, hf.2.1,
                  promotedTask_eo]
                have h3 := hf.2.2
                omega
              · have hb := (movedTasks_eo_bounds now rest
                  (s.promoteTask task) u hu1).1
                rw [hnone.2, promoteTask_current_fence, hf.2.1]
                have h2 := promoteTask_nsn s task
                have h3 := hf.2.2
                omega
        · have hact : s.activateDelayedFenceIfNeeded task.delayed_run_time
              = s := activate_future s _ df h (by omega)
          have hdf2 : (s.promoteTask task).delayed_fence = some df := by
            rw [promoteTask_delayed_fence, hact]
            exact h
          have IH := ih (s.promoteTask task) df hdf2
          constructor
          · intro hall
            have r := IH.1 fun u hu =>
              hall u (List.mem_cons_of_mem _ hu)
            refine ⟨r.1, ?_⟩
            rw [r.2, promoteTask_current_fence, hact]
          · intro hex
            obtain ⟨u, hu, hdu⟩ := hex
            rcases List.mem_cons.mp hu with rfl | hu1
            · exfalso
              rw [promotedTask_run] at hdu
              omega
            · have r := IH.2 ⟨u, hu1, hdu⟩
              refine ⟨r.1,
                le_trans (le_of_lt (promoteTask_nsn_gt s task)) r.2.1,
                ?_⟩
              intro v hv hdv
              rcases List.mem_cons.mp hv with rfl | hv1
              · exfalso
                rw [promotedTask_run] at hdv
                omega
              · exact r.2.2 v hv1 hdv

theorem moveReadyLoop_diq (now : Nat) (pend : List Task) :
    ∀ s : TaskQueueImpl, s.delayed_incoming_queue.queue_ = pend →
      (moveReadyLoop now pend s).delayed_incoming_queue.queue_
        = pend.dropWhile (pDue now) := by
  induction pend with
  | nil =>
    intro s hs
    simpa [moveReadyLoop] using hs
  | cons task rest ih =>
    intro s hs
    simp only [moveReadyLoop]
    by_cases hc : task.cancelled = true
    · rw [if_pos hc]
      have hp : pDue now task = true := by simp [pDue, hc]
      rw [List.dropWhile_cons_of_pos hp]
      refine ih _ ?_
      simp [DelayedIncomingQueue.pop, hs]
    · rw [if_neg hc]
      by_cases hrun : now < task.delayed_run_time
      · rw [if_pos hrun]
        have hp : pDue now task = false := by
          simp [pDue]
          exact ⟨by simpa using hc, by omega⟩
        rw [List.dropWhile_cons_of_neg (by simp [hp])]
        exact hs
      · rw [if_neg hrun]
        have hp : pDue now task = true := by
          simp [pDue]
          omega
        rw [List.dropWhile_cons_of_pos hp]
        refine ih _ ?_
        rw [promoteTask_diq]
        simp [DelayedIncomingQueue.pop, hs]

theorem head_dropWhile_false (p : Task → Bool) (l : List Task) :
    ∀ x ∈ (l.dropWhile p).head?, p x = false := by
  induction l with
  | nil =>
    intro x hx
    simp [List.dropWhile] at hx
  | cons h rest ih =>
    intro x hx
    by_cases hp : p h = true
    · rw [List.dropWhile_cons_of_pos hp] at hx
      exact ih x hx
    · rw [List.dropWhile_cons_of_neg hp] at hx
      simp at hx
      subst hx
      simpa using hp

theorem takeWhile_filter_sorted (now : Nat) (l : List Task)
    (hs : l.Pairwise
      fun a b => a.delayed_run_time ≤ b.delayed_run_time) :
    (l.takeWhile (pDue now)).filter (fun t => !t.cancelled)
      = l.filter
          fun t => !t.cancelled && decide (t.delayed_run_time ≤ now) := by
  induction l with
  | nil => rfl
  | cons h rest ih =>
    rw [List.pairwise_cons] at hs
    obtain ⟨hall, hrest⟩ := hs
    by_cases hp : pDue now h = true
    · rw [List.takeWhile_cons_of_pos hp]
      cases hc : h.cancelled
      · have hdue : h.delayed_run_time ≤ now := by
          simp [pDue, hc] at hp
          exact hp
        rw [List.filter_cons_of_pos (by simp [hc]),
          List.filter_cons_of_pos (by simp [hc, hdue]), ih hrest]
      · rw [List.filter_cons_of_neg (by simp [hc]),
          List.filter_cons_of_neg (by simp [hc]), ih hrest]
    · have hc : h.cancelled = false := by
        simp [pDue] at hp
        exact hp.1
      have hgt : now < h.delayed_run_time := by
        simp [pDue, hc] at hp
        omega
      rw [List.takeWhile_cons_of_neg hp]
      have hnil : (h :: rest).filter
          (fun t => !t.cancelled && decide (t.delayed_run_time ≤ now))
            = [] := by
        rw [List.filter_eq_nil_iff]
        intro t ht
        rcases List.mem_cons.mp ht with rfl | ht1
        · simp
          omega
        · have := hall t ht1
          simp
          omega
      rw [hnil]
      rfl

/-- C3: running `MoveReadyDelayedTasksToWorkQueue(now)` on a state whose
delayed incoming heap extracts in run-time order pops cancelled top tasks
without executing them, appends every non-cancelled due task, in heap
order, to the delayed work queue with a freshly allocated strictly
increasing enqueue order, converts a pending delayed fence whose time is
at or before the run time of some moved task into a current fence that
blocks that task, leaves the incoming heap empty or with a non-cancelled
top task due strictly after `now`, and recomputes the scheduled
wake-up. -/
theorem c3_moveReadyDelayedTasks (s : TaskQueueImpl) (now : Nat)
    (hsorted : s.delayed_incoming_queue.queue_.Pairwise
      fun a b => a.delayed_run_time ≤ b.delayed_run_time)
    (hpos : 0 < s.next_sequence_number) :
    ∃ app : List Task,
      (s.moveReadyDelayedTasksToWorkQueue
          now).delayed_incoming_queue.queue_
        = s.delayed_incoming_queue.queue_.dropWhile (pDue now) ∧
      (∀ t ∈ (s.moveReadyDelayedTasksToWorkQueue
          now).delayed_incoming_queue.queue_.head?,
        t.cancelled = false ∧ now < t.delayed_run_time) ∧
      (s.moveReadyDelayedTasksToWorkQueue now).delayed_work_queue.tasks
        = s.delayed_work_queue.tasks ++ app ∧
      app.map stripEo
        = (s.delayed_incoming_queue.queue_.filter
            fun t => !t.cancelled &&
              decide (t.delayed_run_time ≤ now)).map stripEo ∧
      (∀ u ∈ app, 0 < u.enqueue_order ∧
        s.next_sequence_number ≤ u.enqueue_order) ∧
      (app.map fun u => u.enqueue_order).Pairwise (· < ·) ∧
      (∀ df, s.delayed_fence = some df →
        (∃ u ∈ app, df ≤ u.delayed_run_time) →
          (s.moveReadyDelayedTasksToWorkQueue now).delayed_fence
            = none ∧
          (s.moveReadyDelayedTasksToWorkQueue now).current_fence ≠ 0 ∧
          ∀ u ∈ app, df ≤ u.delayed_run_time →
            (s.moveReadyDelayedTasksToWorkQueue now).current_fence
              < u.enqueue_order) ∧
      (s.moveReadyDelayedTasksToWorkQueue now).scheduled_wake_up
        = (s.moveReadyDelayedTasksToWorkQueue
            now).getNextScheduledWakeUpImpl := by
  refine ⟨movedTasks now s.delayed_incoming_queue.queue_ s,
    ?_, ?_, ?_, ?_, ?_, ?_, ?_, ?_⟩
  · exact moveReadyLoop_diq now _ s rfl
  · intro t ht
    rw [show (s.moveReadyDelayedTasksToWorkQueue
        now).delayed_incoming_queue
          = (moveReadyLoop now s.delayed_incoming_queue.queue_
              s).delayed_incoming_queue from rfl,
      moveReadyLoop_diq now _ s rfl] at ht
    have hp := head_dropWhile_false (pDue now) _ t ht
    simp [pDue] at hp
    exact ⟨hp.1, by omega⟩
  · exact moveReadyLoop_dwq now _ s
  · rw [movedTasks_stripEo now _ s,
      takeWhile_filter_sorted now _ hsorted]
  · intro u hu
    have h := movedTasks_eo_bounds now _ s u hu
    exact ⟨by omega, h.1⟩
  · exact movedTasks_pairwise now _ s
  · intro df hdf hex
    have h := (moveReadyLoop_fence_some now
      s.delayed_incoming_queue.queue_ s df hdf).2 hex
    refine ⟨h.1, ?_, h.2.2⟩
    have h1 := h.2.1
    have heq : (s.moveReadyDelayedTasksToWorkQueue now).current_fence
        = (moveReadyLoop now s.delayed_incoming_queue.queue_
            s).current_fence := rfl
    rw [heq]
    omega
  · rfl

/-- C3 witness: promoting the ready tasks of the example state at time 6,
which pops the cancelled task, moves the due task with run time 5
(activating the pending delayed fence at time 5 first) and leaves the
task with run time 9 pending. -/
theorem c3_moveReadyDelayedTasks_witness :
    (exampleState.delayed_incoming_queue.queue_.Pairwise
      fun a b => a.delayed_run_time ≤ b.delayed_run_time) ∧
    0 < exampleState.next_sequence_number ∧
    (∃ app : List Task,
      (exampleState.moveReadyDelayedTasksToWorkQueue
          6).delayed_incoming_queue.queue_
        = exampleState.delayed_incoming_queue.queue_.dropWhile (pDue 6) ∧
      (∀ t ∈ (exampleState.moveReadyDelayedTasksToWorkQueue
          6).delayed_incoming_queue.queue_.head?,
        t.cancelled = false ∧ 6 < t.delayed_run_time) ∧
      (exampleState.moveReadyDelayedTasksToWorkQueue
          6).delayed_work_queue.tasks
        = exampleState.delayed_work_queue.tasks ++ app ∧
      app.map stripEo
        = (exampleState.delayed_incoming_queue.queue_.filter
            fun t => !t.cancelled &&
              decide (t.delayed_run_time ≤ 6)).map stripEo ∧
      (∀ u ∈ app, 0 < u.enqueue_order ∧
        exampleState.next_sequence_number ≤ u.enqueue_order) ∧
      (app.map fun u => u.enqueue_order).Pairwise (· < ·) ∧
      (∀ df, exampleState.delayed_fence = some df →
        (∃ u ∈ app, df ≤ u.delayed_run_time) →
          (exampleState.moveReadyDelayedTasksToWorkQueue
            6).delayed_fence = none ∧
          (exampleState.moveReadyDelayedTasksToWorkQueue
            6).current_fence ≠ 0 ∧
          ∀ u ∈ app, df ≤ u.delayed_run_time →
            (exampleState.moveReadyDelayedTasksToWorkQueue
              6).current_fence < u.enqueue_order) ∧
      (exampleState.moveReadyDelayedTasksToWorkQueue 6).scheduled_wake_up
        = (exampleState.moveReadyDelayedTasksToWorkQueue
            6).getNextScheduledWakeUpImpl) :=
  ⟨by decide, by decide,
    c3_moveReadyDelayedTasks exampleState 6 (by decide) (by decide)⟩

end Sched
